import Mathlib

/-
Formal model of the skipper traffic-mirroring ("tee") filter and of the
proxy execution context, translated from filters/tee/tee.go and the
proxy context code of the same repository.  Go byte slices are modelled
as lists of natural numbers, Go maps as association lists (lookup is the
first matching entry, assignment is modelled by prepending, which has
the same lookup semantics), nil-able Go pointers and maps as Option,
and mutable slice cells (used by http.Header values) as references into
an explicit store.
-/

namespace Skipper

/-! ### Stream tee (teeTie.Read, tee.go lines 63-82)

The Go reader `teeTie` wraps a source reader `r` and a pipe writer `w`.
A single Read of the wrapper is modelled by `teeTieRead`: the source's
answer is a byte chunk together with an error value (`ok` for nil error,
`eof` for io.EOF, `fail e` for any other error).  The pipe writer is
modelled by its observable state: the list of chunks successfully
written to it and whether it has been closed (normally or with an
error).  `wok` tells, per write attempt, whether the pipe accepts the
write (io.Pipe writes can fail when the read end is gone); the Go code
only logs such a failure. -/

inductive ReadErr where
  | ok
  | eof
  | fail (e : String)
deriving DecidableEq, Repr

inductive DestState where
  | isOpen
  | closed
  | closedWithError (e : String)
deriving DecidableEq, Repr

structure TeeState where
  destChunks : List (List Nat)
  destState : DestState
  primaryChunks : List (List Nat)
  writeIdx : Nat
deriving DecidableEq, Repr

/-- One call of teeTie.Read: reads `(chunk, e)` from the source; on a
non-EOF error it closes the destination with that error and returns the
error without writing; otherwise it writes the chunk (if non-empty) to
the destination, closes the destination on EOF, and returns the source's
count and error unchanged. -/
def teeTieRead (wok : Nat → Bool) (st : TeeState) (chunk : List Nat) (e : ReadErr) :
    TeeState × (Nat × ReadErr) :=
  match e with
  | ReadErr.fail msg =>
      ({ st with destState := DestState.closedWithError msg }, (chunk.length, ReadErr.fail msg))
  | _ =>
      let st1 :=
        if chunk.length > 0 then
          (if wok st.writeIdx then
            { st with destChunks := st.destChunks ++ [chunk], writeIdx := st.writeIdx + 1 }
          else
            { st with writeIdx := st.writeIdx + 1 })
        else st
      let st2 := if e = ReadErr.eof then { st1 with destState := DestState.closed } else st1
      (st2, (chunk.length, e))

/-- A sequence of reads through the tee wrapper: each element of `reads`
is the chunk and error the source yields for that call; the bytes handed
back to the primary caller (the first `n` bytes of the buffer) are
accumulated in `primaryChunks`. -/
def teeTieRun (wok : Nat → Bool) : List (List Nat × ReadErr) → TeeState → TeeState
  | [], st => st
  | (c, e) :: rest, st =>
      let out := teeTieRead wok st c e
      teeTieRun wok rest { out.1 with primaryChunks := out.1.primaryChunks ++ [c.take out.2.1] }

def initTeeState : TeeState :=
  { destChunks := [], destState := DestState.isOpen, primaryChunks := [], writeIdx := 0 }

/-! ### Compiled regular expressions (regexp.Compile / ReplaceAllString)

The tee filter compiles its second parameter with regexp.Compile and
applies ReplaceAllString to the clone's URL path.  We model the family
of compiled patterns that the spec exercises: a literal string of
characters, optionally anchored at the start of the text with a leading
caret, and a replacement string without dollar expansions.
ReplaceAllString replaces every leftmost non-overlapping match.  The
functions are written with an explicit fuel argument (the length of the
text suffices) so that they compute by structural recursion. -/

structure Regex where
  anchored : Bool
  pat : String
deriving DecidableEq, Repr

/-- Whether the pattern occurs anywhere in the text. -/
def occursIn (pat : List Char) : List Char → Bool
  | [] => pat.isPrefixOf []
  | c :: rest => pat.isPrefixOf (c :: rest) || occursIn pat rest

/-- Replace every leftmost non-overlapping occurrence of `p :: ps` by
`repl`; fuel-driven, adequate whenever fuel is at least the text length. -/
def replaceAllFuel (p : Char) (ps repl : List Char) : Nat → List Char → List Char
  | 0, s => s
  | _ + 1, [] => []
  | f + 1, c :: rest =>
      if (p :: ps).isPrefixOf (c :: rest) then
        repl ++ replaceAllFuel p ps repl f (rest.drop ps.length)
      else
        c :: replaceAllFuel p ps repl f rest

/-- Number of leftmost non-overlapping occurrences of `p :: ps`. -/
def countMatchesFuel (p : Char) (ps : List Char) : Nat → List Char → Nat
  | 0, _ => 0
  | _ + 1, [] => 0
  | f + 1, c :: rest =>
      if (p :: ps).isPrefixOf (c :: rest) then
        countMatchesFuel p ps f (rest.drop ps.length) + 1
      else
        countMatchesFuel p ps f rest

/-- Replace at most `n` leftmost non-overlapping occurrences. -/
def replaceNFuel (p : Char) (ps repl : List Char) : Nat → Nat → List Char → List Char
  | 0, _, s => s
  | _ + 1, _, [] => []
  | _ + 1, 0, s => s
  | f + 1, n + 1, c :: rest =>
      if (p :: ps).isPrefixOf (c :: rest) then
        repl ++ replaceNFuel p ps repl f n (rest.drop ps.length)
      else
        c :: replaceNFuel p ps repl f (n + 1) rest

def replaceAllL (p : Char) (ps repl s : List Char) : List Char :=
  replaceAllFuel p ps repl s.length s

def countMatchesL (p : Char) (ps s : List Char) : Nat :=
  countMatchesFuel p ps s.length s

def replaceNL (p : Char) (ps repl : List Char) (n : Nat) (s : List Char) : List Char :=
  replaceNFuel p ps repl s.length n s

/-- Model of rx.ReplaceAllString(s, repl) for the modelled pattern
family.  An anchored pattern can match only at the start of the text, so
at most one replacement happens; an unanchored literal is replaced at
every leftmost non-overlapping occurrence. -/
def goReplaceAll (rx : Regex) (repl s : String) : String :=
  match rx.pat.data with
  | [] => s
  | p :: ps =>
      if rx.anchored then
        if (p :: ps).isPrefixOf s.data then
          String.mk (repl.data ++ s.data.drop (p :: ps).length)
        else s
      else
        String.mk (replaceAllL p ps repl.data s.data)

/-! ### Header maps with mutable value slices (cloneHeader, tee.go 103-114)

http.Header maps header names to string slices.  Slices are mutable
references into shared backing storage, so a header object is modelled
as a list of (name, slice reference) pairs and a `Store` maps each
reference to its current list of values.  `updSlice` models an in-place
mutation of one value slice.  The observable content of a header under
a store is `headerView`. -/

structure Store where
  slices : Nat → List String
  next : Nat

def updSlice (σ : Store) (r : Nat) (v : List String) : Store :=
  { σ with slices := fun i => if i = r then v else σ.slices i }

def headerView (h : List (String × Nat)) (σ : Store) : List (String × List String) :=
  h.map (fun e => (e.1, σ.slices e.2))

/-- cloneHeader: builds a fresh header map, allocating for every name a
new slice whose contents are copied element by element from the source
slice.  (This helper is defined in tee.go but cloneRequest never calls
it.) -/
def cloneHeader : List (String × Nat) → Store → List (String × Nat) × Store
  | [], σ => ([], σ)
  | (n, r) :: rest, σ =>
      let r' := σ.next
      let σ' : Store :=
        { slices := fun i => if i = r' then σ.slices r else σ.slices i, next := σ.next + 1 }
      let out := cloneHeader rest σ'
      ((n, r') :: out.1, out.2)

/-! ### Requests, the tee filter value and cloneRequest (tee.go 118-138) -/

structure GoURL where
  scheme : String
  host : String
  path : String
  rawQuery : String
deriving DecidableEq, Repr

/-- Body values: the original source stream, the read end of the pipe
created for the mirror clone, or the tee wrapper installed around the
original body (teeTie holds the wrapped body and the pipe's write end). -/
inductive BodyVal where
  | source (id : Nat)
  | pipeReader (pid : Nat)
  | teeWrap (inner : BodyVal) (pid : Nat)
deriving DecidableEq, Repr

structure Request where
  method : String
  url : GoURL
  host : String
  header : List (String × Nat)
  body : BodyVal
  requestURI : String
deriving DecidableEq, Repr

inductive TeeType where
  | asBackend
  | pathModified
deriving DecidableEq, Repr

/-- The tee filter value.  `rx` is the compiled path pattern; it is set
exactly when `typ` is `pathModified` (CreateFilter establishes this). -/
structure Tee where
  typ : TeeType
  host : String
  scheme : String
  rx : Option Regex
  replacement : String
deriving DecidableEq, Repr

/-- cloneRequest: `*clone = *req` copies the struct (so the header map
reference, hence every value-slice reference, is shared), the URL is
copied by value and its host/scheme overwritten, a pipe `pid` is
created, the clone's body becomes the pipe's read end while the
original request's body is replaced by the tee wrapper, RequestURI is
cleared, and with a pathModified configuration the compiled pattern's
ReplaceAllString is applied to the clone's path.  Returns the clone and
the mutated original. -/
def cloneRequest (t : Tee) (req : Request) (pid : Nat) : Request × Request :=
  let clone := req
  let copyUrl := req.url
  let clone :=
    { clone with
        url := { copyUrl with host := t.host, scheme := t.scheme }
        host := t.host }
  let clone := { clone with body := BodyVal.pipeReader pid, requestURI := "" }
  let req' := { req with body := BodyVal.teeWrap req.body pid }
  let clone :=
    if t.typ = TeeType.pathModified then
      { clone with
          url :=
            { clone.url with
                path :=
                  goReplaceAll (t.rx.getD { anchored := false, pat := "" }) t.replacement
                    clone.url.path } }
    else clone
  (clone, req')

/-! ### CreateFilter (tee.go 143-191)

url.Parse and regexp.Compile are external, fallible library functions;
they enter the model as parameters `parseURL` and `compileRx`, `none`
standing for a parse or compile error. -/

inductive Param where
  | str (s : String)
  | num (n : Int)
  | other
deriving DecidableEq, Repr

inductive TeeError where
  | invalidFilterParameters
  | invalidFilterConfig
  | urlParseError
  | regexCompileError
deriving DecidableEq, Repr

/-- CreateFilter: requires a first string parameter whose URL parse
supplies host and scheme; with exactly one parameter the filter mirrors
as-is, with exactly three (the other two strings, the second compiling
as a pattern) it also rewrites the path; every other shape is an
error.  The checks happen in source order: empty config, first
parameter type, URL parse, then arity. -/
def CreateFilter (parseURL : String → Option GoURL) (compileRx : String → Option Regex) :
    List Param → Except TeeError Tee
  | [] => Except.error TeeError.invalidFilterParameters
  | p0 :: rest =>
      match p0 with
      | Param.str backend =>
          match parseURL backend with
          | none => Except.error TeeError.urlParseError
          | some u =>
              match rest with
              | [] =>
                  Except.ok
                    { typ := TeeType.asBackend, host := u.host, scheme := u.scheme,
                      rx := none, replacement := "" }
              | [p1, p2] =>
                  match p1, p2 with
                  | Param.str expr, Param.str repl =>
                      match compileRx expr with
                      | none => Except.error TeeError.regexCompileError
                      | some rx =>
                          Except.ok
                            { typ := TeeType.pathModified, host := u.host, scheme := u.scheme,
                              rx := some rx, replacement := repl }
                  | _, _ => Except.error TeeError.invalidFilterConfig
              | _ => Except.error TeeError.invalidFilterParameters
      | _ => Except.error TeeError.invalidFilterParameters

/-! ### Proxy execution context (proxy context code of the repository)

Pointers and nil-able maps become Option; the response writer, panic
list, and timestamps are opaque data never touched by the modelled
operations.  Response bodies are byte lists (`defaultBody` is an empty
buffer). -/

inductive BackendType where
  | network
  | shuntBackend
  | loopBackend
deriving DecidableEq, Repr

structure Route where
  host : String
  backend : String
  shunt : Bool
  backendType : BackendType
deriving DecidableEq, Repr

/-- The fields of http.Response that the modelled context operations
touch: status code, nil-able header map, nil-able body, request
back-reference. -/
structure Rsp where
  statusCode : Nat
  header : Option (List (String × List String))
  body : Option (List Nat)
  request : Option Request
deriving DecidableEq, Repr

structure Ctx where
  responseWriter : Nat
  request : Request
  response : Option Rsp
  route : Option Route
  deprecatedServed : Bool
  servedWithResponse : Bool
  pathParams : Option (List (String × String))
  stateBag : List (String × Nat)
  originalRequest : Option Request
  originalResponse : Option Rsp
  outgoingHost : String
  debugFilterPanics : List Nat
  outgoingDebugRequest : Option Request
  incomingDebugResponse : Option Rsp
  loopCounter : Int
  startServe : Nat
deriving DecidableEq, Repr

def defaultBody : List Nat := []

/-- http.StatusNotFound is 404. -/
def defaultResponse (r : Request) : Rsp :=
  { statusCode := 404, header := some [], body := some defaultBody, request := some r }

/-- ensureDefaultResponse: substitutes the default not-found response
when none is set; otherwise keeps the response and only fills a nil
header map or nil body with an empty default. -/
def ensureDefaultResponse (c : Ctx) : Ctx :=
  match c.response with
  | none => { c with response := some (defaultResponse c.request) }
  | some r =>
      let r1 := if r.header = none then { r with header := some [] } else r
      let r2 := if r1.body = none then { r1 with body := some defaultBody } else r1
      { c with response := some r2 }

/-- Go map lookup on the association-list model: the first matching
entry wins. -/
def lookupParam : List (String × String) → String → Option String
  | [], _ => none
  | (k, v) :: rest, key => if key = k then some v else lookupParam rest key

/-- Go map assignment to[k] = v: prepending has exactly the map's
lookup semantics (the latest assignment is found first). -/
def insertParam (m : List (String × String)) (k v : String) : List (String × String) :=
  (k, v) :: m

def mergeParamsAux : List (String × String) → List (String × String) → List (String × String)
  | m, [] => m
  | m, (k, v) :: rest => mergeParamsAux (insertParam m k v) rest

/-- mergeParams: a nil `to` map is replaced by a fresh empty map, then
every entry of `from` is assigned into it. -/
def mergeParams (toM : Option (List (String × String))) (ps : List (String × String)) :
    List (String × String) :=
  mergeParamsAux (toM.getD []) ps

/-- applyRoute: records the route, sets outgoingHost from the inbound
request's host when preserveHost is set and from the route's host
otherwise, and merges the new params into pathParams. -/
def applyRoute (c : Ctx) (route : Route) (params : List (String × String))
    (preserveHost : Bool) : Ctx :=
  { c with
      route := some route
      outgoingHost := if preserveHost then c.request.host else route.host
      pathParams := some (mergeParams c.pathParams params) }

def MarkServed (c : Ctx) : Ctx := { c with deprecatedServed := true }

def Served (c : Ctx) : Bool := c.deprecatedServed || c.servedWithResponse

def Response (c : Ctx) : Option Rsp := c.response

def deprecatedShunted (c : Ctx) : Bool := c.deprecatedServed

def shunted (c : Ctx) : Bool := c.servedWithResponse

def PathParam (c : Ctx) (key : String) : String :=
  (lookupParam (c.pathParams.getD []) key).getD ""

/-! ### The mirror dispatch goroutine (tee.Request, tee.go 90-101)

tee.Request clones the request and spawns `client.Do(&copyOfRequest)`
in a goroutine.  The goroutine's handler is modelled as a pure function
of the call's outcome: on an error it only logs; on success it closes
the response body (`defer rsp.Body.Close()`) — nothing ever reads the
body, so it is not drained — and in either case the filter context is
never touched. -/

structure MirrorBody where
  drained : Bool
  closed : Bool
deriving DecidableEq, Repr

inductive DoResult where
  | ok (rsp : Rsp)
  | fail (e : String)
deriving DecidableEq, Repr

structure DispatchOut where
  mirrorBody : Option MirrorBody
  logged : Bool
  fc : Ctx
deriving DecidableEq, Repr

def teeDispatch (res : DoResult) (fc : Ctx) : DispatchOut :=
  match res with
  | DoResult.fail _ => { mirrorBody := none, logged := true, fc := fc }
  | DoResult.ok _ =>
      { mirrorBody := some { drained := false, closed := true }, logged := false, fc := fc }

/-! ### Concrete fixtures used by witnesses and counterexamples -/

def σ0 : Store := { slices := fun i => if i = 0 then ["x"] else [], next := 1 }

def url0 : GoURL :=
  { scheme := "https", host := "orig.example", path := "/v1/items", rawQuery := "q=1" }

def req0 : Request :=
  { method := "GET", url := url0, host := "orig.example", header := [("A", 0)],
    body := BodyVal.source 0, requestURI := "/v1/items?q=1" }

def t0 : Tee :=
  { typ := TeeType.asBackend, host := "shadow.example:80", scheme := "http",
    rx := none, replacement := "" }

def ctx0 : Ctx :=
  { responseWriter := 0, request := req0, response := none, route := none,
    deprecatedServed := false, servedWithResponse := false, pathParams := none,
    stateBag := [], originalRequest := none, originalResponse := none,
    outgoingHost := "orig.example", debugFilterPanics := [], outgoingDebugRequest := none,
    incomingDebugResponse := none, loopCounter := 0, startServe := 0 }

def rsp0 : Rsp := { statusCode := 200, header := some [], body := some [], request := none }

def route0 : Route :=
  { host := "backend.example", backend := "http://backend.example", shunt := false,
    backendType := BackendType.network }

/-! ### Claim theorems -/

/-- C8: a read through the tee wrapper in which the source returns an
error other than end-of-stream closes the destination pipe with that
same error (aborting its reader), returns the same count and error to
the primary caller, and writes none of the partially read data to the
destination. -/
theorem teeTieRead_error_propagates (wok : Nat → Bool) (st : TeeState) (chunk : List Nat)
    (msg : String) :
    teeTieRead wok st chunk (ReadErr.fail msg) =
      ({ st with destState := DestState.closedWithError msg },
        (chunk.length, ReadErr.fail msg)) ∧
    (teeTieRead wok st chunk (ReadErr.fail msg)).1.destChunks = st.destChunks :=
  ⟨rfl, rfl⟩

/-- C9: when the source read itself succeeds (no error or end-of-stream),
the tee wrapper's Read returns exactly the source's count and error,
regardless of whether the write to the destination pipe failed. -/
theorem teeTieRead_swallows_write_failure (wok : Nat → Bool) (st : TeeState)
    (chunk : List Nat) (e : ReadErr) (h : e = ReadErr.ok ∨ e = ReadErr.eof) :
    (teeTieRead wok st chunk e).2 = (chunk.length, e) := by
  rcases h with h | h <;> subst h <;> rfl

/-- Witness for C9: a successful EOF read of two bytes with a failing
destination write still returns count 2 and EOF to the primary caller. -/
theorem teeTieRead_swallows_write_failure_w :
    (ReadErr.eof = ReadErr.ok ∨ ReadErr.eof = ReadErr.eof) ∧
    (teeTieRead (fun _ => false) initTeeState [1, 2] ReadErr.eof).2 = (2, ReadErr.eof) :=
  ⟨Or.inr rfl,
    teeTieRead_swallows_write_failure (fun _ => false) initTeeState [1, 2] ReadErr.eof
      (Or.inr rfl)⟩

/-- An error-free read with an accepting destination appends the chunk
to the destination stream, leaves the primary accumulator alone, and
returns the source's count and error. -/
theorem teeTieRead_noerr (st : TeeState) (c : List Nat) (e : ReadErr)
    (he : e = ReadErr.ok ∨ e = ReadErr.eof) :
    ((teeTieRead (fun _ => true) st c e).1).destChunks.flatten =
        st.destChunks.flatten ++ c ∧
    ((teeTieRead (fun _ => true) st c e).1).primaryChunks = st.primaryChunks ∧
    (teeTieRead (fun _ => true) st c e).2 = (c.length, e) := by
  rcases he with he | he <;> subst he <;> by_cases hc : c.length > 0 <;>
    have hcc := hc <;>
    simp only [teeTieRead, hc, if_true, if_false, reduceCtorEq, decide_True, decide_False,
      ite_true, ite_false] <;>
    first
    | (simp [List.flatten_append]; done)
    | (have hcnil : c = [] := List.length_eq_zero.mp (Nat.eq_zero_of_not_pos hcc)
       simp [hcnil])

/-- Every tee run over error-free reads appends exactly the source
chunks to both the destination-side and the primary-side streams. -/
theorem teeTieRun_append_flatten (reads : List (List Nat × ReadErr)) :
    ∀ st : TeeState, (∀ p ∈ reads, p.2 = ReadErr.ok ∨ p.2 = ReadErr.eof) →
      (teeTieRun (fun _ => true) reads st).destChunks.flatten =
        st.destChunks.flatten ++ (reads.map Prod.fst).flatten ∧
      (teeTieRun (fun _ => true) reads st).primaryChunks.flatten =
        st.primaryChunks.flatten ++ (reads.map Prod.fst).flatten := by
  induction reads with
  | nil => intro st _; simp [teeTieRun]
  | cons p rest ih =>
      intro st h
      obtain ⟨c, e⟩ := p
      have he : e = ReadErr.ok ∨ e = ReadErr.eof := h (c, e) (by simp)
      have hrest : ∀ q ∈ rest, q.2 = ReadErr.ok ∨ q.2 = ReadErr.eof := by
        intro q hq
        exact h q (by simp [hq])
      have hr := teeTieRead_noerr st c e he
      simp only [teeTieRun]
      constructor
      · rw [(ih _ hrest).1]
        simp [hr.1, List.append_assoc]
      · rw [(ih _ hrest).2]
        simp [hr.2.1, hr.2.2, List.flatten_append, List.append_assoc]

/-- C2: over any sequence of reads of arbitrary chunk sizes in which the
source yields no hard error and the destination pipe accepts every
write, the concatenation of bytes written to the destination equals, in
order, the concatenation of bytes returned to the primary reader, and
both equal the full source byte stream — no bytes duplicated or
dropped. -/
theorem teeTie_mirror_exact (reads : List (List Nat × ReadErr))
    (h : ∀ p ∈ reads, p.2 = ReadErr.ok ∨ p.2 = ReadErr.eof) :
    (teeTieRun (fun _ => true) reads initTeeState).destChunks.flatten =
      (teeTieRun (fun _ => true) reads initTeeState).primaryChunks.flatten ∧
    (teeTieRun (fun _ => true) reads initTeeState).primaryChunks.flatten =
      (reads.map Prod.fst).flatten := by
  have h2 := teeTieRun_append_flatten reads initTeeState h
  rw [h2.1, h2.2]
  simp [initTeeState]

/-- Witness for C2: the body [1,2,3] read as chunks [1,2] then [3] (EOF
with the final chunk) reaches the destination and the primary caller
identically. -/
theorem teeTie_mirror_exact_w :
    (∀ p ∈ [([1, 2], ReadErr.ok), ([3], ReadErr.eof)],
        p.2 = ReadErr.ok ∨ p.2 = ReadErr.eof) ∧
    ((teeTieRun (fun _ => true) [([1, 2], ReadErr.ok), ([3], ReadErr.eof)]
          initTeeState).destChunks.flatten =
        (teeTieRun (fun _ => true) [([1, 2], ReadErr.ok), ([3], ReadErr.eof)]
          initTeeState).primaryChunks.flatten ∧
      (teeTieRun (fun _ => true) [([1, 2], ReadErr.ok), ([3], ReadErr.eof)]
          initTeeState).primaryChunks.flatten =
        ([([1, 2], ReadErr.ok), ([3], ReadErr.eof)].map Prod.fst).flatten) :=
  ⟨by decide, teeTie_mirror_exact _ (by decide)⟩

/-- C3 counterexample: it is not the case that the mirror response body
is always drained by the dispatch handler — on a successful dispatch
the handler only closes the body (rsp.Body.Close()), it never reads it. -/
theorem teeDispatch_not_drained :
    ¬ (∀ (res : DoResult) (fc : Ctx) (b : MirrorBody),
        (teeDispatch res fc).mirrorBody = some b → b.drained = true) := by
  intro h
  have hb := h (DoResult.ok rsp0) ctx0 { drained := false, closed := true } rfl
  simp at hb

/-- C3 (amended): the dispatch handler closes the mirror response body
when a response arrives (without draining it), only logs a dispatch
error, and in every case leaves the primary request's filter context
unchanged. -/
theorem teeDispatch_closes_logs_preserves (res : DoResult) (fc : Ctx) :
    (teeDispatch res fc).fc = fc ∧
    (∀ e, res = DoResult.fail e →
      (teeDispatch res fc).logged = true ∧ (teeDispatch res fc).mirrorBody = none) ∧
    (∀ r, res = DoResult.ok r →
      (teeDispatch res fc).mirrorBody = some { drained := false, closed := true } ∧
        (teeDispatch res fc).logged = false) := by
  cases res <;> simp [teeDispatch]

/-- Witness for C3 (amended): a successful dispatch closes the body,
logs nothing, and leaves the context alone. -/
theorem teeDispatch_closes_logs_preserves_w :
    (teeDispatch (DoResult.ok rsp0) ctx0).mirrorBody =
        some { drained := false, closed := true } ∧
      (teeDispatch (DoResult.ok rsp0) ctx0).logged = false :=
  (teeDispatch_closes_logs_preserves (DoResult.ok rsp0) ctx0).2.2 rsp0 rfl

/-- C6: with no response set, ensureDefaultResponse installs the
not-found response with status 404, a non-nil empty header map and a
non-nil empty body; with a response already set, that response is kept
and only a nil header map or nil body is replaced by an empty default. -/
theorem ensureDefaultResponse_spec (c : Ctx) :
    (c.response = none →
      (ensureDefaultResponse c).response =
        some { statusCode := 404, header := some [], body := some [],
               request := some c.request }) ∧
    (∀ r, c.response = some r →
      (ensureDefaultResponse c).response =
        some { r with header := some (r.header.getD []), body := some (r.body.getD []) }) := by
  constructor
  · intro h
    simp [ensureDefaultResponse, h, defaultResponse, defaultBody]
  · intro r h
    obtain ⟨sc, hd, bd, rq⟩ := r
    cases hd <;> cases bd <;> simp [ensureDefaultResponse, h, defaultBody]

/-- Witness for C6: on a context with no response the default not-found
response is substituted. -/
theorem ensureDefaultResponse_spec_w :
    ctx0.response = none ∧
    (ensureDefaultResponse ctx0).response =
      some { statusCode := 404, header := some [], body := some [],
             request := some ctx0.request } :=
  ⟨rfl, (ensureDefaultResponse_spec ctx0).1 rfl⟩

/-- C10: MarkServed sets only the deprecated served flag — afterwards
Served is true, Response still returns whatever it returned before, and
every other field of the context is unchanged. -/
theorem markServed_only_flag (c : Ctx) :
    (MarkServed c).deprecatedServed = true ∧
    Served (MarkServed c) = true ∧
    Response (MarkServed c) = Response c ∧
    (MarkServed c).response = c.response ∧
    (MarkServed c).responseWriter = c.responseWriter ∧
    (MarkServed c).request = c.request ∧
    (MarkServed c).route = c.route ∧
    (MarkServed c).servedWithResponse = c.servedWithResponse ∧
    (MarkServed c).pathParams = c.pathParams ∧
    (MarkServed c).stateBag = c.stateBag ∧
    (MarkServed c).originalRequest = c.originalRequest ∧
    (MarkServed c).originalResponse = c.originalResponse ∧
    (MarkServed c).outgoingHost = c.outgoingHost ∧
    (MarkServed c).debugFilterPanics = c.debugFilterPanics ∧
    (MarkServed c).outgoingDebugRequest = c.outgoingDebugRequest ∧
    (MarkServed c).incomingDebugResponse = c.incomingDebugResponse ∧
    (MarkServed c).loopCounter = c.loopCounter ∧
    (MarkServed c).startServe = c.startServe := by
  simp [MarkServed, Served, Response]

/-! ### Parameter-merge lemmas and C7 -/

theorem lookupParam_not_mem (ps : List (String × String)) (key : String)
    (h : key ∉ ps.map Prod.fst) : lookupParam ps key = none := by
  induction ps with
  | nil => rfl
  | cons q rest ih =>
      obtain ⟨k, v⟩ := q
      simp only [List.map_cons, List.mem_cons] at h
      push_neg at h
      simp [lookupParam, h.1, ih h.2]

theorem mergeParamsAux_lookup_none (ps : List (String × String)) :
    ∀ (m : List (String × String)) (key : String), lookupParam ps key = none →
      lookupParam (mergeParamsAux m ps) key = lookupParam m key := by
  induction ps with
  | nil => intro m key _; rfl
  | cons q rest ih =>
      intro m key h
      obtain ⟨k, v⟩ := q
      by_cases hk : key = k
      · subst hk
        simp [lookupParam] at h
      · have hrest : lookupParam rest key = none := by
          simpa [lookupParam, hk] using h
        rw [mergeParamsAux, ih (insertParam m k v) key hrest]
        simp [insertParam, lookupParam, hk]

theorem mergeParamsAux_lookup_some (ps : List (String × String)) :
    ∀ (m : List (String × String)) (key v : String), (ps.map Prod.fst).Nodup →
      lookupParam ps key = some v → lookupParam (mergeParamsAux m ps) key = some v := by
  induction ps with
  | nil => intro m key v _ h; simp [lookupParam] at h
  | cons q rest ih =>
      intro m key v hnd h
      obtain ⟨k, v'⟩ := q
      simp only [List.map_cons, List.nodup_cons] at hnd
      by_cases hk : key = k
      · subst hk
        have hv : v' = v := by simpa [lookupParam] using h
        have hrest : lookupParam rest key = none := lookupParam_not_mem rest key hnd.1
        rw [← hv, mergeParamsAux,
          mergeParamsAux_lookup_none rest (insertParam m key v') key hrest]
        simp [insertParam, lookupParam]
      · have hrest : lookupParam rest key = some v := by
          simpa [lookupParam, hk] using h
        rw [mergeParamsAux]
        exact ih (insertParam m k v') key v hnd.2 hrest

/-- C7: applyRoute records the route, sets outgoingHost from the
request's host when preserveHost is set and from the route's host
otherwise, and merges params into pathParams so that a key present in
params looks up to its new value while every other key keeps its
earlier value. -/
theorem applyRoute_spec (c : Ctx) (route : Route) (params : List (String × String))
    (preserveHost : Bool) (hnd : (params.map Prod.fst).Nodup) :
    (applyRoute c route params preserveHost).route = some route ∧
    (applyRoute c route params preserveHost).outgoingHost =
      (if preserveHost then c.request.host else route.host) ∧
    (∀ key v, lookupParam params key = some v →
      lookupParam ((applyRoute c route params preserveHost).pathParams.getD []) key =
        some v) ∧
    (∀ key, lookupParam params key = none →
      lookupParam ((applyRoute c route params preserveHost).pathParams.getD []) key =
        lookupParam (c.pathParams.getD []) key) := by
  refine ⟨rfl, rfl, ?_, ?_⟩
  · intro key v hv
    simp only [applyRoute, Option.getD_some, mergeParams]
    exact mergeParamsAux_lookup_some params (c.pathParams.getD []) key v hnd hv
  · intro key h
    simp only [applyRoute, Option.getD_some, mergeParams]
    exact mergeParamsAux_lookup_none params (c.pathParams.getD []) key h

def ctx1 : Ctx := { ctx0 with pathParams := some [("id", "old"), ("x", "1")] }

/-- Witness for C7: merging the collision-carrying map replaces the
value for the colliding key and keeps the other key's earlier value. -/
theorem applyRoute_spec_w :
    ([("id", "new")].map Prod.fst).Nodup ∧
    lookupParam ((applyRoute ctx1 route0 [("id", "new")] false).pathParams.getD []) "id" =
      some "new" ∧
    lookupParam ((applyRoute ctx1 route0 [("id", "new")] false).pathParams.getD []) "x" =
      some "1" := by
  refine ⟨by decide, ?_, ?_⟩
  · exact (applyRoute_spec ctx1 route0 [("id", "new")] false (by decide)).2.2.1 "id" "new"
      (by decide)
  · have h := (applyRoute_spec ctx1 route0 [("id", "new")] false (by decide)).2.2.2 "x"
      (by decide)
    rw [h]
    decide

/-! ### C1: header aliasing in cloneRequest -/

/-- C1 evidence: cloneRequest copies the header map by reference
(`*clone = *req`) and never calls cloneHeader, so the clone's header is
the very same map with the very same value-slice references; after
mutating the original's value list for "A" (the slice at reference 0),
the clone's observed value list for "A" has changed with it, so the
headers are not deep-copied. -/
theorem cloneRequest_header_aliased :
    ((cloneRequest t0 req0 7).1).header = req0.header ∧
    headerView ((cloneRequest t0 req0 7).1).header σ0 = [("A", ["x"])] ∧
    headerView ((cloneRequest t0 req0 7).1).header (updSlice σ0 0 ["x", "y"]) =
      [("A", ["x", "y"])] := by
  refine ⟨rfl, by decide, by decide⟩

/-- The unused cloneHeader helper, by contrast, does produce an
independent deep copy: on the same fixture it allocates a fresh slice
(reference 1), mutating the original slice 0 leaves the copy's view
unchanged, and mutating the copy's slice 1 leaves the original's view
unchanged. -/
theorem cloneHeader_deep_example :
    (cloneHeader [("A", 0)] σ0).1 = [("A", 1)] ∧
    headerView (cloneHeader [("A", 0)] σ0).1 (cloneHeader [("A", 0)] σ0).2 = [("A", ["x"])] ∧
    headerView (cloneHeader [("A", 0)] σ0).1
        (updSlice (cloneHeader [("A", 0)] σ0).2 0 ["x", "y"]) = [("A", ["x"])] ∧
    headerView [("A", 0)] (updSlice (cloneHeader [("A", 0)] σ0).2 1 ["z"]) = [("A", ["x"])] := by
  refine ⟨rfl, by decide, by decide, by decide⟩

/-! ### C4: CreateFilter error behaviour -/

@[simp]
theorem isOk_error {ε α : Type} (e : ε) : (Except.error e : Except ε α).isOk = false := rfl

@[simp]
theorem isOk_ok {ε α : Type} (a : α) : (Except.ok a : Except ε α).isOk = true := rfl

/-- C4: CreateFilter fails exactly when the arity is neither 1 nor 3,
or the first parameter is not a string, or (at arity 3) the second or
third parameter is not a string, or the pattern string fails to
compile, or the backend URL string fails to parse; on success the
returned filter's host and scheme come from the parsed backend URL. -/
theorem createFilter_error_iff (pu : String → Option GoURL) (cr : String → Option Regex)
    (config : List Param) :
    ((CreateFilter pu cr config).isOk = false ↔
      ((config.length ≠ 1 ∧ config.length ≠ 3) ∨
        (¬ ∃ s, config.head? = some (Param.str s)) ∨
        (config.length = 3 ∧
          ¬ ∃ e rp, config.get? 1 = some (Param.str e) ∧
            config.get? 2 = some (Param.str rp)) ∨
        (∃ s, config.head? = some (Param.str s) ∧ pu s = none) ∨
        (config.length = 3 ∧
          ∃ e, config.get? 1 = some (Param.str e) ∧ cr e = none))) ∧
    (∀ t, CreateFilter pu cr config = Except.ok t →
      ∃ s u, config.head? = some (Param.str s) ∧ pu s = some u ∧
        t.host = u.host ∧ t.scheme = u.scheme) := by
  rcases config with _ | ⟨p0, _ | ⟨p1, _ | ⟨p2, _ | ⟨p3, rest⟩⟩⟩⟩
  · exact ⟨by simp [CreateFilter], by intro t ht; simp [CreateFilter] at ht⟩
  · -- arity 1
    cases p0 with
    | str s =>
        cases hpu : pu s with
        | none =>
            refine ⟨by simp [CreateFilter, hpu], ?_⟩
            intro t ht
            simp [CreateFilter, hpu] at ht
        | some u =>
            refine ⟨by simp [CreateFilter, hpu], ?_⟩
            intro t ht
            have ht2 : t =
                { typ := TeeType.asBackend, host := u.host, scheme := u.scheme,
                  rx := none, replacement := "" } := by
              simp [CreateFilter, hpu] at ht
              exact ht.symm
            subst ht2
            exact ⟨s, u, rfl, hpu, rfl, rfl⟩
    | num n => exact ⟨by simp [CreateFilter], by intro t ht; simp [CreateFilter] at ht⟩
    | other => exact ⟨by simp [CreateFilter], by intro t ht; simp [CreateFilter] at ht⟩
  · -- arity 2
    refine ⟨?_, ?_⟩
    · cases p0 with
      | str s => cases hpu : pu s <;> simp [CreateFilter, hpu]
      | num n => simp [CreateFilter]
      | other => simp [CreateFilter]
    · intro t ht
      cases p0 with
      | str s => cases hpu : pu s <;> simp [CreateFilter, hpu] at ht
      | num n => simp [CreateFilter] at ht
      | other => simp [CreateFilter] at ht
  · -- arity 3
    cases p0 with
    | str s =>
        cases hpu : pu s with
        | none =>
            refine ⟨by simp [CreateFilter, hpu], ?_⟩
            intro t ht
            simp [CreateFilter, hpu] at ht
        | some u =>
            cases p1 with
            | str e =>
                cases p2 with
                | str rp =>
                    cases hcr : cr e with
                    | none =>
                        refine ⟨by simp [CreateFilter, hpu, hcr], ?_⟩
                        intro t ht
                        simp [CreateFilter, hpu, hcr] at ht
                    | some rx =>
                        refine ⟨by simp [CreateFilter, hpu, hcr], ?_⟩
                        intro t ht
                        have ht2 : t =
                            { typ := TeeType.pathModified, host := u.host, scheme := u.scheme,
                              rx := some rx, replacement := rp } := by
                          simp [CreateFilter, hpu, hcr] at ht
                          exact ht.symm
                        subst ht2
                        exact ⟨s, u, rfl, hpu, rfl, rfl⟩
                | num n =>
                    exact ⟨by simp [CreateFilter, hpu],
                      by intro t ht; simp [CreateFilter, hpu] at ht⟩
                | other =>
                    exact ⟨by simp [CreateFilter, hpu],
                      by intro t ht; simp [CreateFilter, hpu] at ht⟩
            | num n =>
                exact ⟨by simp [CreateFilter, hpu],
                  by intro t ht; simp [CreateFilter, hpu] at ht⟩
            | other =>
                exact ⟨by simp [CreateFilter, hpu],
                  by intro t ht; simp [CreateFilter, hpu] at ht⟩
    | num n => exact ⟨by simp [CreateFilter], by intro t ht; simp [CreateFilter] at ht⟩
    | other => exact ⟨by simp [CreateFilter], by intro t ht; simp [CreateFilter] at ht⟩
  · -- arity at least 4
    refine ⟨?_, ?_⟩
    · have hR : (p0 :: p1 :: p2 :: p3 :: rest).length ≠ 1 ∧
          (p0 :: p1 :: p2 :: p3 :: rest).length ≠ 3 := by
        constructor <;> (simp [List.length_cons]; try omega)
      constructor
      · intro _
        exact Or.inl hR
      · intro _
        cases p0 with
        | str s => cases hpu : pu s <;> simp [CreateFilter, hpu]
        | num n => simp [CreateFilter]
        | other => simp [CreateFilter]
    · intro t ht
      cases p0 with
      | str s => cases hpu : pu s <;> simp [CreateFilter, hpu] at ht
      | num n => simp [CreateFilter] at ht
      | other => simp [CreateFilter] at ht

def pu0 : String → Option GoURL :=
  fun _ => some { scheme := "http", host := "shadow.example:80", path := "", rawQuery := "" }

def cr0 : String → Option Regex := fun s => some { anchored := false, pat := s }

/-- Witness for C4: a single-string configuration with a parsing URL
creates a filter carrying the parsed host and scheme. -/
theorem createFilter_error_iff_w :
    ∃ s u, [Param.str "http://shadow.example:80"].head? = some (Param.str s) ∧
      pu0 s = some u ∧
      ({ typ := TeeType.asBackend, host := "shadow.example:80", scheme := "http",
         rx := none, replacement := "" } : Tee).host = u.host ∧
      ({ typ := TeeType.asBackend, host := "shadow.example:80", scheme := "http",
         rx := none, replacement := "" } : Tee).scheme = u.scheme :=
  (createFilter_error_iff pu0 cr0 [Param.str "http://shadow.example:80"]).2
    { typ := TeeType.asBackend, host := "shadow.example:80", scheme := "http",
      rx := none, replacement := "" } rfl

/-! ### Replace-all lemmas and C5 -/

theorem replaceNFuel_zero (p : Char) (ps repl : List Char) (f : Nat) (s : List Char) :
    replaceNFuel p ps repl f 0 s = s := by
  cases f <;> cases s <;> rfl

theorem occursIn_false_replaceAllFuel (p : Char) (ps repl : List Char) :
    ∀ (f : Nat) (s : List Char), occursIn (p :: ps) s = false →
      replaceAllFuel p ps repl f s = s := by
  intro f
  induction f with
  | zero => intro s _; rfl
  | succ f ih =>
      intro s h
      cases s with
      | nil => rfl
      | cons c rest =>
          simp only [occursIn, Bool.or_eq_false_iff] at h
          simp [replaceAllFuel, h.1, ih rest h.2]

theorem isPrefixOf_false_of_occursIn_false (pat s : List Char)
    (h : occursIn pat s = false) : pat.isPrefixOf s = false := by
  cases s with
  | nil => simpa [occursIn] using h
  | cons c rest =>
      simp only [occursIn, Bool.or_eq_false_iff] at h
      exact h.1

theorem replaceAllFuel_eq_replaceNFuel (p : Char) (ps repl : List Char) :
    ∀ (f : Nat) (s : List Char), s.length ≤ f →
      replaceAllFuel p ps repl f s =
        replaceNFuel p ps repl f (countMatchesFuel p ps f s) s := by
  intro f
  induction f with
  | zero =>
      intro s h
      rfl
  | succ f ih =>
      intro s h
      cases s with
      | nil => rfl
      | cons c rest =>
          by_cases hp : (p :: ps).isPrefixOf (c :: rest)
          · have hlen : (rest.drop ps.length).length ≤ f := by
              simp only [List.length_drop]
              simp only [List.length_cons] at h
              omega
            simp [replaceAllFuel, countMatchesFuel, replaceNFuel, hp, ih _ hlen]
          · have hlen : rest.length ≤ f := by
              simp only [List.length_cons] at h
              omega
            cases hcm : countMatchesFuel p ps f rest with
            | zero =>
                have hrest := ih rest hlen
                rw [hcm, replaceNFuel_zero] at hrest
                simp [replaceAllFuel, countMatchesFuel, replaceNFuel, hp, hcm, hrest]
            | succ n =>
                have hrest := ih rest hlen
                rw [hcm] at hrest
                simp [replaceAllFuel, countMatchesFuel, replaceNFuel, hp, hcm, hrest]

def t1 : Tee :=
  { typ := TeeType.pathModified, host := "shadow.example", scheme := "http",
    rx := some { anchored := true, pat := "/v1/" }, replacement := "/v2/" }

/-- C5: with a path-rewrite configuration, the compiled pattern's
replace-all is applied to the clone's URL path and the query string is
untouched; a path with no match is unchanged; for an unanchored pattern
the result replaces exactly the number of leftmost non-overlapping
matches (all of them, not just the first); and on the spec's examples
the anchored pattern /v1/ maps /v1/items to /v2/items, leaves /other
unchanged, and the unanchored pattern rewrites both of two
occurrences. -/
theorem tee_path_rewrite (t : Tee) (r : Regex) (p : Char) (ps : List Char)
    (ht : t.typ = TeeType.pathModified) (hrx : t.rx = some r)
    (hlit : r.pat.data = p :: ps) :
    (∀ req pid, ((cloneRequest t req pid).1).url.rawQuery = req.url.rawQuery) ∧
    (∀ req pid, ((cloneRequest t req pid).1).url.path =
      goReplaceAll r t.replacement req.url.path) ∧
    (∀ s : String, occursIn r.pat.data s.data = false →
      goReplaceAll r t.replacement s = s) ∧
    (r.anchored = false → ∀ s : String,
      (goReplaceAll r t.replacement s).data =
        replaceNL p ps t.replacement.data (countMatchesL p ps s.data) s.data) ∧
    (goReplaceAll { anchored := true, pat := "/v1/" } "/v2/" "/v1/items" = "/v2/items" ∧
      goReplaceAll { anchored := true, pat := "/v1/" } "/v2/" "/other" = "/other" ∧
      goReplaceAll { anchored := false, pat := "/v1/" } "/x/" "/v1/a/v1/b" = "/x/a/x/b" ∧
      countMatchesL '/' ['v', '1', '/'] "/v1/a/v1/b".data = 2) := by
  refine ⟨?_, ?_, ?_, ?_, by decide, by decide, by decide, by decide⟩
  · intro req pid
    simp [cloneRequest, ht]
  · intro req pid
    simp [cloneRequest, ht, hrx]
  · intro s h
    rw [hlit] at h
    obtain ⟨d⟩ := s
    cases ha : r.anchored
    · simp only [goReplaceAll, hlit, ha, if_false, Bool.false_eq_true]
      rw [replaceAllL, occursIn_false_replaceAllFuel p ps _ _ _ h]
    · have hpfx : (p :: ps).isPrefixOf d = false := isPrefixOf_false_of_occursIn_false _ _ h
      simp [goReplaceAll, hlit, ha, hpfx]
  · intro ha s
    simp only [goReplaceAll, hlit, ha, if_false, Bool.false_eq_true]
    exact replaceAllFuel_eq_replaceNFuel p ps t.replacement.data s.data.length s.data le_rfl

/-- Witness for C5: the anchored /v1/ configuration of `t1` rewrites the
clone's path of /v1/items while keeping the query string. -/
theorem tee_path_rewrite_w :
    t1.typ = TeeType.pathModified ∧
    ((cloneRequest t1 req0 3).1).url.rawQuery = req0.url.rawQuery ∧
    ((cloneRequest t1 req0 3).1).url.path =
      goReplaceAll { anchored := true, pat := "/v1/" } t1.replacement req0.url.path := by
  refine ⟨rfl, ?_, ?_⟩
  · exact (tee_path_rewrite t1 { anchored := true, pat := "/v1/" } '/' ['v', '1', '/'] rfl rfl
      rfl).1 req0 3
  · exact (tee_path_rewrite t1 { anchored := true, pat := "/v1/" } '/' ['v', '1', '/'] rfl rfl
      rfl).2.1 req0 3

end Skipper
